import Mathlib

/-!
# Verification of the user-activity audit log core (task-flow)

Shallow embedding of the log writer, query engine, statistics aggregator
and deletion operations of the user-log subsystem
(`server/src/controller/userLogController.js` together with the
`UserLog` Mongoose schema), and proofs of the specified properties.

Conventions of the embedding:
* The document store is a `List LogRecord`; `createdAt` / `loginTime` /
  `logoutTime` are epoch milliseconds as `Int`; absent (`null`) date and
  duration fields are `Option.none`.
* Request-body string fields use `""` for an absent value, matching
  JavaScript falsiness of strings (`!x` and `x || y` treat `undefined`
  and `""` identically).
* The user directory (`User` collection) is a `List UserDoc`; `findById`
  is a first-match lookup on `id`.
* Each controller invocation is modelled as a pure function of the
  directory, the store, the request and a single current instant `now`
  (every clock read inside one invocation yields `now`), returning the
  HTTP-level outcome and the resulting store.
* A Mongoose `save` whose document violates the schema enums throws and
  is caught by the controller's `catch`, i.e. yields the internal-error
  outcome with the store unchanged.
-/

namespace TaskFlow

/-- A document of the external `User` collection, restricted to the
fields the log subsystem reads (`_id`, `email`, `role`, `fullName`). -/
structure UserDoc where
  id : String
  email : String
  role : String
  fullName : String
deriving Repr, DecidableEq

/-- A `UserLog` document as declared by `UserLogSchema`:
`userId`, denormalized `username`/`role`, `action`, the optional
`loginTime`/`logoutTime`/`sessionDuration`, `ipAddress`, `tokenName`,
`userAgent`, and the store-assigned `id` and `createdAt`. -/
structure LogRecord where
  id : String
  userId : String
  username : String
  role : String
  action : String
  loginTime : Option Int := none
  logoutTime : Option Int := none
  ipAddress : String
  tokenName : String := "N/A"
  userAgent : String := "Unknown"
  sessionDuration : Option Int := none
  createdAt : Int
deriving Repr, DecidableEq

/-- The closed `action` enum of `UserLogSchema`. -/
def actionEnum : List String := ["login", "logout", "register", "password_reset"]

/-- The closed `role` enum of `UserLogSchema`. -/
def roleEnum : List String := ["user", "admin"]

/-- Schema validation performed by Mongoose on `save`: the enum
constraints of `UserLogSchema` (`action` and `role` must be members of
their closed sets).  Required string fields are populated by the
controller before `save`, so only the enum checks can fail there. -/
def validRecord (r : LogRecord) : Bool :=
  actionEnum.contains r.action && roleEnum.contains r.role

/-- `User.findById`: first document of the directory with the given id. -/
def findUserById (users : List UserDoc) (uid : String) : Option UserDoc :=
  users.find? (fun u => u.id = uid)

/-- Request body of `POST /create` (`req.body`); `""` encodes an absent
field, as JavaScript string falsiness does. -/
structure CreateReqBody where
  userId : String := ""
  action : String := ""
  ipAddress : String := ""
  tokenName : String := ""
  userAgent : String := ""
deriving Repr, DecidableEq

/-- Outcome of `createUserLog`, keyed by the HTTP status the controller
sends: 400 missing fields, 404 unknown user, 500 caught exception,
201 with the created record. -/
inductive CreateResult where
  | invalidInput
  | notFound
  | internalError
  | created (log : LogRecord)
deriving Repr, DecidableEq

/-- Is `r` strictly later than `b` under the `sort({loginTime: -1})`
order used by the latest-login lookup?  A present `loginTime` sorts
above an absent one, and present times compare numerically. -/
def laterLogin (r b : LogRecord) : Bool :=
  match r.loginTime, b.loginTime with
  | some x, some y => decide (y < x)
  | some _, none => true
  | none, _ => false

/-- One step of the first-by-descending-`loginTime` selection: keep
the current best, replacing it only by a strictly later record. -/
def pickStep (best : Option LogRecord) (r : LogRecord) : Option LogRecord :=
  match best with
  | none => some r
  | some b => if laterLogin r b then some r else some b

/-- First document of `l` under the descending-`loginTime` order: the
fold keeps the current best and replaces it only by a strictly later
one, so ties resolve to the earliest list position, as a stable sort's
first element does. -/
def firstByLoginTimeDesc (l : List LogRecord) : Option LogRecord :=
  l.foldl pickStep none

/-- The lookup
`UserLog.findOne({userId, action: 'login', loginTime: {$exists: true}}).sort({loginTime: -1})`.
Every stored document carries a `loginTime` field (the schema defaults
it to `null`), so `$exists: true` restricts nothing; the candidates are
the user's login records and the result is the newest by `loginTime`. -/
def lastLoginLog (store : List LogRecord) (uid : String) : Option LogRecord :=
  firstByLoginTimeDesc
    (store.filter (fun r => r.userId = uid && r.action = "login"))

/-- The `logData` object assembled at controller lines 26–34: identity
snapshot from the resolved user, the caller's action and address, and
the `'N/A'` / header / `'Unknown'` defaults. -/
def baseLog (body : CreateReqBody) (headerUA : String) (now : Int)
    (freshId : String) (user : UserDoc) : LogRecord :=
  { id := freshId
    userId := user.id
    username := user.email
    role := user.role
    action := body.action
    ipAddress := body.ipAddress
    tokenName := if body.tokenName = "" then "N/A" else body.tokenName
    userAgent :=
      if body.userAgent ≠ "" then body.userAgent
      else if headerUA ≠ "" then headerUA
      else "Unknown"
    createdAt := now }

/-- The action branch at controller lines 36–50: stamp `loginTime` on
`login`; on `logout` stamp `logoutTime` and, when the latest-login
lookup yields a record with a non-null `loginTime`, derive
`sessionDuration = now − loginTime`; other actions store the base
record as-is. -/
def logDataFor (store : List LogRecord) (body : CreateReqBody)
    (headerUA : String) (now : Int) (freshId : String) (user : UserDoc) :
    LogRecord :=
  let base := baseLog body headerUA now freshId user
  if body.action = "login" then
    { base with loginTime := some now }
  else if body.action = "logout" then
    let withOut := { base with logoutTime := some now }
    match lastLoginLog store user.id with
    | some lastLog =>
      match lastLog.loginTime with
      | some t => { withOut with sessionDuration := some (now - t) }
      | none => withOut
    | none => withOut
  else base

/-- `createUserLog(req, res)` (controller lines 7–69): required-field
check, user lookup, record assembly with defaults, the `login` /
`logout` branch (with latest-login linkage for `logout`), then `save`.
`headerUA` is `req.get('User-Agent')`, `now` the invocation instant,
`freshId` the store-assigned id.  Returns the outcome and the store
after the call. -/
def createUserLog (users : List UserDoc) (store : List LogRecord)
    (body : CreateReqBody) (headerUA : String) (now : Int) (freshId : String) :
    CreateResult × List LogRecord :=
  if body.userId = "" || body.action = "" || body.ipAddress = "" then
    (.invalidInput, store)
  else
    match findUserById users body.userId with
    | none => (.notFound, store)
    | some user =>
      let logData := logDataFor store body headerUA now freshId user
      if validRecord logData then
        (.created logData, store ++ [logData])
      else
        (.internalError, store)

/-! ## Query engine (`getUserLogs`, controller lines 74–143) -/

/-- Does `pat` occur as a prefix of `l`? -/
def prefixAt (pat l : List Char) : Bool :=
  match pat, l with
  | [], _ => true
  | _ :: _, [] => false
  | p :: ps, c :: cs => p = c && prefixAt ps cs

/-- Does `pat` occur as a contiguous sublist of `l`? -/
def hasSub (pat l : List Char) : Bool :=
  match l with
  | [] => pat.isEmpty
  | _ :: cs => prefixAt pat l || hasSub pat cs

/-- Case-insensitive substring test: the semantics of
`{$regex: pat, $options: 'i'}` for a metacharacter-free pattern. -/
def containsCI (hay pat : String) : Bool :=
  hasSub pat.toLower.data hay.toLower.data

/-- Query parameters of `GET /logs` (`req.query`) with the controller's
defaults; `""` encodes an absent string parameter and `none` an absent
date bound. -/
structure QueryParams where
  page : Nat := 1
  limit : Nat := 50
  role : String := ""
  action : String := ""
  search : String := ""
  startDate : Option Int := none
  endDate : Option Int := none
  sortBy : String := "createdAt"
  sortOrder : String := "desc"
deriving Repr, DecidableEq

/-- The `filter` object built at controller lines 88–109, as a
predicate on a stored record: conditional `role` and `action` equality
clauses (skipped when absent or `"all"`), the `$or` of two
case-insensitive substring clauses for `search`, and inclusive
`$gte`/`$lte` bounds on `createdAt`. -/
def matchesFilter (q : QueryParams) (r : LogRecord) : Bool :=
  (if q.role ≠ "" && q.role ≠ "all" then r.role = q.role else true) &&
  (if q.action ≠ "" && q.action ≠ "all" then r.action = q.action else true) &&
  (if q.search ≠ "" then
      containsCI r.username q.search || containsCI r.ipAddress q.search
    else true) &&
  (match q.startDate with | some s => decide (s ≤ r.createdAt) | none => true) &&
  (match q.endDate with | some e => decide (r.createdAt ≤ e) | none => true)

/-- The filter semantics as the specification words it: the conjunction
of the supplied clauses — `role` equality unless `"all"`, `action`
equality unless `"all"`, case-insensitive substring of `username` or
`ipAddress`, and independent inclusive `createdAt` bounds.  Stated for
comparison with the code's `matchesFilter`. -/
def specFilter (q : QueryParams) (r : LogRecord) : Prop :=
  (q.role ≠ "" ∧ q.role ≠ "all" → r.role = q.role) ∧
  (q.action ≠ "" ∧ q.action ≠ "all" → r.action = q.action) ∧
  (q.search ≠ "" →
    containsCI r.username q.search = true ∨ containsCI r.ipAddress q.search = true) ∧
  (∀ s, q.startDate = some s → s ≤ r.createdAt) ∧
  (∀ e, q.endDate = some e → r.createdAt ≤ e)

/-- Comparison on optional times under the store's order: an absent
(`null`) value sorts below every present one. -/
def optIntLE : Option Int → Option Int → Bool
  | none, _ => true
  | some _, none => false
  | some a, some b => a ≤ b

/-- Ascending comparison for `sort[sortBy] = 1` on the schema's fields;
a key outside the schema compares everything equal, leaving the order
unchanged. -/
def fieldLE (field : String) (a b : LogRecord) : Bool :=
  if field = "createdAt" then a.createdAt ≤ b.createdAt
  else if field = "loginTime" then optIntLE a.loginTime b.loginTime
  else if field = "logoutTime" then optIntLE a.logoutTime b.logoutTime
  else if field = "sessionDuration" then optIntLE a.sessionDuration b.sessionDuration
  else if field = "username" then a.username ≤ b.username
  else if field = "role" then a.role ≤ b.role
  else if field = "action" then a.action ≤ b.action
  else if field = "ipAddress" then a.ipAddress ≤ b.ipAddress
  else if field = "tokenName" then a.tokenName ≤ b.tokenName
  else if field = "userAgent" then a.userAgent ≤ b.userAgent
  else true

/-- The `.sort(sort)` stage: stable sort by the single key `sortBy`,
descending exactly when `sortOrder = 'desc'` (lines 111–112). -/
def sortLogs (sortKey sortOrder : String) (l : List LogRecord) : List LogRecord :=
  if sortOrder = "desc" then
    l.mergeSort (fun a b => fieldLE sortKey b a)
  else
    l.mergeSort (fun a b => fieldLE sortKey a b)

/-- The two fields `populate('userId', 'fullName email')` projects from
the live user document. -/
structure PopulatedUser where
  fullName : String
  email : String
deriving Repr, DecidableEq

/-- A record as returned by `GET /logs`: the stored fields, with the
`userId` reference replaced by the populated projection of the current
user document (`none` when the user no longer resolves). -/
structure PopulatedLog where
  id : String
  user : Option PopulatedUser
  username : String
  role : String
  action : String
  loginTime : Option Int
  logoutTime : Option Int
  ipAddress : String
  tokenName : String
  userAgent : String
  sessionDuration : Option Int
  createdAt : Int
deriving Repr, DecidableEq

/-- `populate('userId', 'fullName email')` applied to one record:
a query-time lookup of the referenced user, every other stored field
passed through unchanged. -/
def populateLog (users : List UserDoc) (r : LogRecord) : PopulatedLog :=
  { id := r.id
    user := (findUserById users r.userId).map (fun u => ⟨u.fullName, u.email⟩)
    username := r.username
    role := r.role
    action := r.action
    loginTime := r.loginTime
    logoutTime := r.logoutTime
    ipAddress := r.ipAddress
    tokenName := r.tokenName
    userAgent := r.userAgent
    sessionDuration := r.sessionDuration
    createdAt := r.createdAt }

/-- The `pagination` object of the response (lines 127–132). -/
structure Pagination where
  currentPage : Nat
  totalPages : Nat
  totalItems : Nat
  itemsPerPage : Nat
deriving Repr, DecidableEq

/-- The `200` response body of `getUserLogs`. -/
structure LogsResponse where
  data : List PopulatedLog
  pagination : Pagination
deriving Repr, DecidableEq

/-- `getUserLogs(req, res)` (lines 74–143): build the filter, sort,
skip `(page − 1) × limit`, take `limit`, populate the user reference,
and count the matching documents for the pagination metadata
(`totalPages = Math.ceil(total / limit)`). -/
def getUserLogs (users : List UserDoc) (store : List LogRecord)
    (q : QueryParams) : LogsResponse :=
  let filtered := store.filter (matchesFilter q)
  let sorted := sortLogs q.sortBy q.sortOrder filtered
  let skip := (q.page - 1) * q.limit
  let total := filtered.length
  { data := ((sorted.drop skip).take q.limit).map (populateLog users)
    pagination :=
      { currentPage := q.page
        totalPages := (total + q.limit - 1) / q.limit
        totalItems := total
        itemsPerPage := q.limit } }

/-! ## Deletion (`deleteUserLog` lines 148–175, `deleteMultipleLogs`
lines 180–206) -/

/-- Outcome of `deleteUserLog`: 404 or 200. -/
inductive DeleteResult where
  | notFound
  | ok
deriving Repr, DecidableEq

/-- `deleteUserLog(req, res)`: `findById` first, 404 when absent,
otherwise `findByIdAndDelete` (removes the single document with that
id) and 200. -/
def deleteUserLog (store : List LogRecord) (logId : String) :
    DeleteResult × List LogRecord :=
  match store.find? (fun r => r.id = logId) with
  | none => (.notFound, store)
  | some _ => (.ok, store.eraseP (fun r => r.id = logId))

/-- Outcome of `deleteMultipleLogs`: 400, or 200 with the
`deletedCount` reported in the success message. -/
inductive BulkDeleteResult where
  | invalidInput
  | ok (deletedCount : Nat)
deriving Repr, DecidableEq

/-- `deleteMultipleLogs(req, res)`: `logIds` must be a present array
(`none` models a missing or non-array body field) and non-empty, else
400; otherwise `deleteMany({_id: {$in: logIds}})` removes every record
whose id is listed and reports how many were removed. -/
def deleteMultipleLogs (store : List LogRecord) (logIds : Option (List String)) :
    BulkDeleteResult × List LogRecord :=
  match logIds with
  | none => (.invalidInput, store)
  | some ids =>
    if ids.isEmpty then
      (.invalidInput, store)
    else
      (.ok (store.countP (fun r => ids.contains r.id)),
        store.filter (fun r => !ids.contains r.id))

/-! ## Statistics aggregator (`getUserLogStats`, lines 211–272) -/

/-- The result shape of `GET /stats`. -/
structure StatsResult where
  totalLogs : Nat
  loginCount : Nat
  logoutCount : Nat
  uniqueUsers : Nat
deriving Repr, DecidableEq

/-- The window length selected by the `switch (period)` at lines
218–230: `24h`, `7d`, `30d`, anything else falling through to the
`default` 7-day branch. -/
def periodMs (period : String) : Int :=
  if period = "24h" then 24 * 60 * 60 * 1000
  else if period = "7d" then 7 * 24 * 60 * 60 * 1000
  else if period = "30d" then 30 * 24 * 60 * 60 * 1000
  else 7 * 24 * 60 * 60 * 1000

/-- `getUserLogStats(req, res)`: `$match` on
`createdAt ≥ now − window`, then the `$group`/`$project` pipeline —
document count, conditional counts for `login` and `logout`, and the
`$size` of the `$addToSet` of `userId`.  An empty match produces no
group, and `stats[0] || {...}` substitutes the all-zero object. -/
def getUserLogStats (store : List LogRecord) (now : Int) (period : String) :
    StatsResult :=
  let cutoff := now - periodMs period
  let matching := store.filter (fun r => cutoff ≤ r.createdAt)
  if matching.isEmpty then
    { totalLogs := 0, loginCount := 0, logoutCount := 0, uniqueUsers := 0 }
  else
    { totalLogs := matching.length
      loginCount := matching.countP (fun r => r.action = "login")
      logoutCount := matching.countP (fun r => r.action = "logout")
      uniqueUsers := (matching.map (fun r => r.userId)).dedup.length }

/-! ## Concrete data for instantiating the theorems -/

/-- A concrete user document. -/
def demoUser : UserDoc :=
  { id := "u1", email := "bob@example.com", role := "admin",
    fullName := "Bob Stone" }

/-- The same user as later edited in the directory (new email, new
role): used to exhibit query-time population against event-time
snapshots. -/
def demoUserChanged : UserDoc :=
  { id := "u1", email := "new@example.com", role := "user",
    fullName := "Bobby Stone" }

/-- An older login record of `demoUser`. -/
def demoLoginOld : LogRecord :=
  { id := "g1", userId := "u1", username := "bob@example.com",
    role := "admin", action := "login", loginTime := some 1000,
    ipAddress := "10.0.0.1", createdAt := 1000 }

/-- A newer login record of `demoUser`. -/
def demoLoginNew : LogRecord :=
  { id := "g2", userId := "u1", username := "bob@example.com",
    role := "admin", action := "login", loginTime := some 2000,
    ipAddress := "10.0.0.1", createdAt := 2000 }

/-- A concrete store holding the two logins. -/
def demoStore : List LogRecord := [demoLoginOld, demoLoginNew]

/-- A logout request body for `demoUser`. -/
def demoLogoutBody : CreateReqBody :=
  { userId := "u1", action := "logout", ipAddress := "10.0.0.2" }

/-- A login request body for `demoUser`. -/
def demoLoginBody : CreateReqBody :=
  { userId := "u1", action := "login", ipAddress := "10.0.0.2" }

/-- The record `createUserLog` persists for `demoLoginBody` at instant
3000 with fresh id `g3`. -/
def demoCreatedLogin : LogRecord :=
  { id := "g3", userId := "u1", username := "bob@example.com",
    role := "admin", action := "login", loginTime := some 3000,
    ipAddress := "10.0.0.2", tokenName := "N/A", userAgent := "UA",
    createdAt := 3000 }

/-- A concrete query: default pagination and sort, with a role clause. -/
def demoQuery : QueryParams :=
  { role := "admin" }

/-! ## Helper lemmas: the descending-`loginTime` selection -/

theorem optIntLE_refl (a : Option Int) : optIntLE a a = true := by
  cases a <;> simp [optIntLE]

theorem optIntLE_trans {a b c : Option Int} (hab : optIntLE a b = true)
    (hbc : optIntLE b c = true) : optIntLE a c = true := by
  cases a <;> cases b <;> cases c <;> simp_all [optIntLE] <;> omega

theorem optIntLE_of_not {a b : Option Int} (h : optIntLE a b = false) :
    optIntLE b a = true := by
  cases a <;> cases b <;> simp_all [optIntLE] <;> omega

theorem laterLogin_eq (r b : LogRecord) :
    laterLogin r b = !optIntLE r.loginTime b.loginTime := by
  unfold laterLogin optIntLE
  cases r.loginTime with
  | none => cases b.loginTime <;> rfl
  | some x =>
    cases b.loginTime with
    | none => rfl
    | some y =>
      by_cases h : x ≤ y
      · simp [h, not_lt.mpr h]
      · simp [h, lt_of_not_le h]

theorem pickStep_isSome (acc : Option LogRecord) (r : LogRecord) :
    ∃ x, pickStep acc r = some x := by
  cases acc with
  | none => exact ⟨r, rfl⟩
  | some b =>
    by_cases h : laterLogin r b = true
    · exact ⟨r, by simp [pickStep, h]⟩
    · exact ⟨b, by simp [pickStep, h]⟩

theorem foldl_pickStep_none (l : List LogRecord) :
    ∀ acc, l.foldl pickStep acc = none → acc = none ∧ l = [] := by
  induction l with
  | nil => intro acc h; exact ⟨h, rfl⟩
  | cons r t ih =>
    intro acc h
    rw [List.foldl_cons] at h
    obtain ⟨x, hx⟩ := pickStep_isSome acc r
    obtain ⟨h1, _⟩ := ih (pickStep acc r) h
    rw [hx] at h1
    exact absurd h1 (by simp)

theorem foldl_pickStep_spec (l : List LogRecord) :
    ∀ acc res, l.foldl pickStep acc = some res →
      (acc = some res ∨ res ∈ l) ∧
      (∀ b, acc = some b → optIntLE b.loginTime res.loginTime = true) ∧
      (∀ r ∈ l, optIntLE r.loginTime res.loginTime = true) := by
  induction l with
  | nil =>
    intro acc res h
    simp only [List.foldl_nil] at h
    refine ⟨Or.inl h, ?_, by simp⟩
    intro b hb
    rw [hb] at h
    cases h
    exact optIntLE_refl _
  | cons r t ih =>
    intro acc res h
    rw [List.foldl_cons] at h
    obtain ⟨hmem, hacc, hrest⟩ := ih (pickStep acc r) res h
    have hstep : ∀ x, pickStep acc r = some x →
        (acc = some x ∨ x = r) ∧
        (∀ b, acc = some b → optIntLE b.loginTime x.loginTime = true) ∧
        optIntLE r.loginTime x.loginTime = true := by
      intro x hx
      cases acc with
      | none =>
        simp only [pickStep] at hx
        cases hx
        refine ⟨Or.inr rfl, ?_, optIntLE_refl _⟩
        intro b hb
        cases hb
      | some b =>
        simp only [pickStep] at hx
        by_cases hl : laterLogin r b = true
        · rw [if_pos hl] at hx
          cases hx
          have hrb : optIntLE r.loginTime b.loginTime = false := by
            have h2 := laterLogin_eq r b
            rw [hl] at h2
            simpa using h2.symm
          have hble : optIntLE b.loginTime r.loginTime = true := optIntLE_of_not hrb
          refine ⟨Or.inr rfl, ?_, optIntLE_refl _⟩
          intro b' hb'
          cases hb'
          exact hble
        · rw [if_neg hl] at hx
          cases hx
          have hrle : optIntLE r.loginTime x.loginTime = true := by
            have h2 := laterLogin_eq r x
            rw [Bool.not_eq_true] at hl
            rw [hl] at h2
            simpa using h2.symm
          refine ⟨Or.inl rfl, ?_, hrle⟩
          intro b' hb'
          cases hb'
          exact optIntLE_refl _
    obtain ⟨y, hy⟩ := pickStep_isSome acc r
    obtain ⟨hy1, hy2, hy3⟩ := hstep y hy
    have hyres : optIntLE y.loginTime res.loginTime = true := hacc y hy
    constructor
    · rcases hmem with hm | hm
      · rw [hy] at hm
        cases hm
        rcases hy1 with h1 | h1
        · exact Or.inl h1
        · exact Or.inr (by rw [h1]; exact List.mem_cons_self _ _)
      · exact Or.inr (List.mem_cons_of_mem _ hm)
    constructor
    · intro b hb
      exact optIntLE_trans (hy2 b hb) hyres
    · intro x hx
      rcases List.mem_cons.mp hx with h1 | h1
      · subst h1
        exact optIntLE_trans hy3 hyres
      · exact hrest x h1

theorem lastLoginLog_mem {store : List LogRecord} {uid : String} {L : LogRecord}
    (h : lastLoginLog store uid = some L) :
    L ∈ store ∧ L.userId = uid ∧ L.action = "login" := by
  unfold lastLoginLog firstByLoginTimeDesc at h
  obtain ⟨hmem, -, -⟩ := foldl_pickStep_spec _ none L h
  rcases hmem with h1 | h1
  · cases h1
  · obtain ⟨h2, h3⟩ := List.mem_filter.mp h1
    simp only [Bool.and_eq_true, decide_eq_true_eq] at h3
    exact ⟨h2, h3.1, h3.2⟩

theorem lastLoginLog_maximal {store : List LogRecord} {uid : String}
    {L : LogRecord} (h : lastLoginLog store uid = some L) :
    ∀ r ∈ store, r.userId = uid → r.action = "login" →
      optIntLE r.loginTime L.loginTime = true := by
  unfold lastLoginLog firstByLoginTimeDesc at h
  obtain ⟨-, -, hmax⟩ := foldl_pickStep_spec _ none L h
  intro r hr h1 h2
  exact hmax r (List.mem_filter.mpr ⟨hr, by simp [h1, h2]⟩)

theorem lastLoginLog_isSome {store : List LogRecord} {uid : String}
    (r : LogRecord) (hr : r ∈ store) (h1 : r.userId = uid)
    (h2 : r.action = "login") :
    ∃ L, lastLoginLog store uid = some L := by
  unfold lastLoginLog firstByLoginTimeDesc
  cases hL : (store.filter
      (fun s => s.userId = uid && s.action = "login")).foldl pickStep none with
  | none =>
    obtain ⟨-, hnil⟩ := foldl_pickStep_none _ none hL
    have hmem : r ∈ store.filter (fun s => s.userId = uid && s.action = "login") :=
      List.mem_filter.mpr ⟨hr, by simp [h1, h2]⟩
    rw [hnil] at hmem
    cases hmem
  | some L => exact ⟨L, rfl⟩

/-- When no stored record is a login of `uid`, the lookup is empty. -/
theorem lastLoginLog_none {store : List LogRecord} {uid : String}
    (h : ∀ r ∈ store, ¬(r.userId = uid ∧ r.action = "login")) :
    lastLoginLog store uid = none := by
  unfold lastLoginLog firstByLoginTimeDesc
  have hfil : store.filter (fun s => s.userId = uid && s.action = "login") = [] := by
    rw [List.filter_eq_nil_iff]
    intro a ha
    simp only [Bool.and_eq_true, decide_eq_true_eq]
    intro hc
    exact h a ha hc
  rw [hfil]
  rfl

/-! ## Helper lemmas: reduction of `createUserLog` on its paths -/

theorem createUserLog_found (users : List UserDoc) (store : List LogRecord)
    (body : CreateReqBody) (headerUA : String) (now : Int) (freshId : String)
    (u : UserDoc) (huid : body.userId ≠ "") (hact : body.action ≠ "")
    (hip : body.ipAddress ≠ "") (hu : findUserById users body.userId = some u) :
    createUserLog users store body headerUA now freshId =
      if validRecord (logDataFor store body headerUA now freshId u) then
        (.created (logDataFor store body headerUA now freshId u),
          store ++ [logDataFor store body headerUA now freshId u])
      else (.internalError, store) := by
  unfold createUserLog
  rw [if_neg (by simp [huid, hact, hip]), hu]

theorem logDataFor_login {store : List LogRecord} {body : CreateReqBody}
    {headerUA : String} {now : Int} {freshId : String} {user : UserDoc}
    (hact : body.action = "login") :
    logDataFor store body headerUA now freshId user =
      { baseLog body headerUA now freshId user with loginTime := some now } := by
  unfold logDataFor
  rw [hact, if_pos rfl]

theorem logDataFor_logout_linked {store : List LogRecord} {body : CreateReqBody}
    {headerUA : String} {now : Int} {freshId : String} {user : UserDoc}
    {L : LogRecord} {t : Int}
    (hact : body.action = "logout") (hL : lastLoginLog store user.id = some L)
    (hLt : L.loginTime = some t) :
    logDataFor store body headerUA now freshId user =
      { baseLog body headerUA now freshId user with
          logoutTime := some now, sessionDuration := some (now - t) } := by
  unfold logDataFor
  rw [hact, if_neg (by decide), if_pos rfl, hL]
  simp [hLt]

theorem logDataFor_logout_unlinked {store : List LogRecord} {body : CreateReqBody}
    {headerUA : String} {now : Int} {freshId : String} {user : UserDoc}
    (hact : body.action = "logout") (hL : lastLoginLog store user.id = none) :
    logDataFor store body headerUA now freshId user =
      { baseLog body headerUA now freshId user with logoutTime := some now } := by
  unfold logDataFor
  rw [hact, if_neg (by decide), if_pos rfl, hL]

theorem logDataFor_other {store : List LogRecord} {body : CreateReqBody}
    {headerUA : String} {now : Int} {freshId : String} {user : UserDoc}
    (h1 : body.action ≠ "login") (h2 : body.action ≠ "logout") :
    logDataFor store body headerUA now freshId user =
      baseLog body headerUA now freshId user := by
  unfold logDataFor
  rw [if_neg h1, if_neg h2]

theorem logDataFor_logout_nullTime {store : List LogRecord} {body : CreateReqBody}
    {headerUA : String} {now : Int} {freshId : String} {user : UserDoc}
    {L : LogRecord}
    (hact : body.action = "logout") (hL : lastLoginLog store user.id = some L)
    (hLt : L.loginTime = none) :
    logDataFor store body headerUA now freshId user =
      { baseLog body headerUA now freshId user with logoutTime := some now } := by
  unfold logDataFor
  rw [hact, if_neg (by decide), if_pos rfl, hL]
  simp [hLt]

theorem logDataFor_action (store : List LogRecord) (body : CreateReqBody)
    (headerUA : String) (now : Int) (freshId : String) (user : UserDoc) :
    (logDataFor store body headerUA now freshId user).action = body.action := by
  unfold logDataFor
  by_cases h1 : body.action = "login"
  · rw [if_pos h1]; rfl
  · rw [if_neg h1]
    by_cases h2 : body.action = "logout"
    · rw [if_pos h2]
      cases hc : lastLoginLog store user.id with
      | none => simp [hc, baseLog]
      | some L =>
        cases hLt : L.loginTime with
        | none => simp [hc, hLt, baseLog]
        | some t => simp [hc, hLt, baseLog]
    · rw [if_neg h2]; rfl

theorem createUserLog_missing (users : List UserDoc) (store : List LogRecord)
    (body : CreateReqBody) (headerUA : String) (now : Int) (freshId : String)
    (h : body.userId = "" ∨ body.action = "" ∨ body.ipAddress = "") :
    createUserLog users store body headerUA now freshId = (.invalidInput, store) := by
  unfold createUserLog
  rw [if_pos (by rcases h with h | h | h <;> simp [h])]

theorem createUserLog_userNotFound (users : List UserDoc) (store : List LogRecord)
    (body : CreateReqBody) (headerUA : String) (now : Int) (freshId : String)
    (h1 : body.userId ≠ "") (h2 : body.action ≠ "") (h3 : body.ipAddress ≠ "")
    (hu : findUserById users body.userId = none) :
    createUserLog users store body headerUA now freshId = (.notFound, store) := by
  unfold createUserLog
  rw [if_neg (by simp [h1, h2, h3]), hu]

/-! ## Claim theorems -/

/-- **C1**  For every logout event recorded by `createUserLog` where at
least one prior login record exists for the same user, the stored
logout record's `sessionDuration` is the elapsed time between the
linked login's `loginTime` and the logout's `logoutTime` (both stamped
`now`), and the linked login is one of that user's login records with
the maximal `loginTime` — never an older one. -/
theorem logout_links_most_recent_login
    (users : List UserDoc) (store : List LogRecord) (body : CreateReqBody)
    (headerUA : String) (now : Int) (freshId : String) (u : UserDoc)
    (huid : body.userId ≠ "") (hip : body.ipAddress ≠ "")
    (hact : body.action = "logout")
    (hu : findUserById users body.userId = some u)
    (hrole : u.role = "user" ∨ u.role = "admin")
    (lg : LogRecord) (hlg : lg ∈ store) (hlgu : lg.userId = u.id)
    (hlga : lg.action = "login") (t : Int) (hlgt : lg.loginTime = some t) :
    ∃ L tmax rec,
      lastLoginLog store u.id = some L ∧
      L ∈ store ∧ L.userId = u.id ∧ L.action = "login" ∧
      L.loginTime = some tmax ∧
      createUserLog users store body headerUA now freshId =
        (.created rec, store ++ [rec]) ∧
      rec.logoutTime = some now ∧
      rec.sessionDuration = some (now - tmax) ∧
      (∀ r ∈ store, r.userId = u.id → r.action = "login" →
        ∀ s, r.loginTime = some s → s ≤ tmax) := by
  obtain ⟨L, hL⟩ := lastLoginLog_isSome lg hlg hlgu hlga
  obtain ⟨hLmem, hLuid, hLact⟩ := lastLoginLog_mem hL
  have hmax := lastLoginLog_maximal hL
  have hle := hmax lg hlg hlgu hlga
  rw [hlgt] at hle
  cases hLt : L.loginTime with
  | none =>
    rw [hLt] at hle
    simp [optIntLE] at hle
  | some tmax =>
    have hdata :=
      @logDataFor_logout_linked store body headerUA now freshId u L tmax hact hL hLt
    have hvalid : validRecord (logDataFor store body headerUA now freshId u) = true := by
      rw [hdata]
      rcases hrole with h | h <;>
        simp [validRecord, baseLog, actionEnum, roleEnum, hact, h]
    have hcreate : createUserLog users store body headerUA now freshId =
        (.created (logDataFor store body headerUA now freshId u),
          store ++ [logDataFor store body headerUA now freshId u]) := by
      rw [createUserLog_found users store body headerUA now freshId u huid
        (by rw [hact]; decide) hip hu, if_pos hvalid]
    refine ⟨L, tmax, logDataFor store body headerUA now freshId u,
      hL, hLmem, hLuid, hLact, hLt, hcreate, ?_, ?_, ?_⟩
    · rw [hdata]
    · rw [hdata]
    · intro r hr h1 h2 s hs
      have h3 := hmax r hr h1 h2
      rw [hs, hLt] at h3
      simpa [optIntLE] using h3

/-- **C9**  A logout event recorded when the user has no prior login
record in the store succeeds (the record is created, no error) and the
stored record's `sessionDuration` is absent. -/
theorem logout_without_prior_login_no_duration
    (users : List UserDoc) (store : List LogRecord) (body : CreateReqBody)
    (headerUA : String) (now : Int) (freshId : String) (u : UserDoc)
    (huid : body.userId ≠ "") (hip : body.ipAddress ≠ "")
    (hact : body.action = "logout")
    (hu : findUserById users body.userId = some u)
    (hrole : u.role = "user" ∨ u.role = "admin")
    (hnolog : ∀ r ∈ store, ¬(r.userId = u.id ∧ r.action = "login")) :
    ∃ rec, createUserLog users store body headerUA now freshId =
        (.created rec, store ++ [rec]) ∧ rec.sessionDuration = none := by
  have hnone := lastLoginLog_none hnolog
  have hdata := @logDataFor_logout_unlinked store body headerUA now freshId u hact hnone
  have hvalid : validRecord (logDataFor store body headerUA now freshId u) = true := by
    rw [hdata]
    rcases hrole with h | h <;>
      simp [validRecord, baseLog, actionEnum, roleEnum, hact, h]
  refine ⟨logDataFor store body headerUA now freshId u, ?_, ?_⟩
  · rw [createUserLog_found users store body headerUA now freshId u huid
      (by rw [hact]; decide) hip hu, if_pos hvalid]
  · rw [hdata]
    simp [baseLog]

/-- **C5**  Invariant over every record produced by `createUserLog`
(under a monotone clock, i.e. no stored login is stamped after `now`):
`loginTime` is present exactly on `login` records, `logoutTime` exactly
on `logout` records, and `sessionDuration`, when present, appears only
on `logout` records and is non-negative. -/
theorem created_record_time_field_invariants
    (users : List UserDoc) (store : List LogRecord) (body : CreateReqBody)
    (headerUA : String) (now : Int) (freshId : String)
    (rec : LogRecord) (store' : List LogRecord)
    (hclock : ∀ r ∈ store, ∀ s, r.loginTime = some s → s ≤ now)
    (hres : createUserLog users store body headerUA now freshId =
      (.created rec, store')) :
    (rec.loginTime.isSome ↔ rec.action = "login") ∧
    (rec.logoutTime.isSome ↔ rec.action = "logout") ∧
    (∀ d, rec.sessionDuration = some d → rec.action = "logout" ∧ 0 ≤ d) := by
  by_cases hmiss : body.userId = "" ∨ body.action = "" ∨ body.ipAddress = ""
  · rw [createUserLog_missing users store body headerUA now freshId hmiss] at hres
    simp at hres
  · push_neg at hmiss
    obtain ⟨h1, h2, h3⟩ := hmiss
    cases hu : findUserById users body.userId with
    | none =>
      rw [createUserLog_userNotFound users store body headerUA now freshId
        h1 h2 h3 hu] at hres
      simp at hres
    | some user =>
      rw [createUserLog_found users store body headerUA now freshId user
        h1 h2 h3 hu] at hres
      by_cases hvalid : validRecord (logDataFor store body headerUA now freshId user) = true
      · rw [if_pos hvalid] at hres
        simp only [Prod.mk.injEq, CreateResult.created.injEq] at hres
        obtain ⟨hrec, -⟩ := hres
        subst hrec
        by_cases ha1 : body.action = "login"
        · rw [@logDataFor_login store body headerUA now freshId user ha1]
          refine ⟨by simp [baseLog, ha1], by simp [baseLog, ha1], ?_⟩
          intro d hd
          simp [baseLog] at hd
        · by_cases ha2 : body.action = "logout"
          · cases hLL : lastLoginLog store user.id with
            | none =>
              rw [@logDataFor_logout_unlinked store body headerUA now freshId user ha2 hLL]
              refine ⟨by simp [baseLog, ha1], by simp [baseLog, ha2], ?_⟩
              intro d hd
              simp [baseLog] at hd
            | some L =>
              cases hLt : L.loginTime with
              | none =>
                rw [@logDataFor_logout_nullTime store body headerUA now freshId user L ha2 hLL hLt]
                refine ⟨by simp [baseLog, ha1], by simp [baseLog, ha2], ?_⟩
                intro d hd
                simp [baseLog] at hd
              | some t =>
                rw [@logDataFor_logout_linked store body headerUA now freshId user L t ha2 hLL hLt]
                refine ⟨by simp [baseLog, ha1], by simp [baseLog, ha2], ?_⟩
                intro d hd
                simp only [baseLog, Option.some.injEq] at hd
                obtain ⟨hLmem, -, -⟩ := lastLoginLog_mem hLL
                have hT := hclock L hLmem t hLt
                constructor
                · simp [baseLog, ha2]
                · omega
          · rw [@logDataFor_other store body headerUA now freshId user ha1 ha2]
            refine ⟨by simp [baseLog, ha1], by simp [baseLog, ha2], ?_⟩
            intro d hd
            simp [baseLog] at hd
      · rw [if_neg hvalid] at hres
        simp at hres

/-- **C6**  `createUserLog` fails with the invalid-input outcome when a
required field is missing — independently of the user directory and the
store, i.e. before any lookup — fails with the not-found outcome when
the user does not resolve, and an action outside the closed enum never
produces a created record nor changes the store (the schema validation
rejects it at `save`). -/
theorem createUserLog_validation_order
    (users : List UserDoc) (store : List LogRecord) (body : CreateReqBody)
    (headerUA : String) (now : Int) (freshId : String) :
    ((body.userId = "" ∨ body.action = "" ∨ body.ipAddress = "") →
      ∀ (users' : List UserDoc) (store' : List LogRecord),
        createUserLog users' store' body headerUA now freshId =
          (.invalidInput, store')) ∧
    (body.userId ≠ "" → body.action ≠ "" → body.ipAddress ≠ "" →
      findUserById users body.userId = none →
      createUserLog users store body headerUA now freshId = (.notFound, store)) ∧
    (body.action ∉ actionEnum →
      (createUserLog users store body headerUA now freshId).2 = store ∧
      ∀ rec, (createUserLog users store body headerUA now freshId).1 ≠
        .created rec) := by
  refine ⟨?_, ?_, ?_⟩
  · intro h users' store'
    exact createUserLog_missing users' store' body headerUA now freshId h
  · intro h1 h2 h3 hu
    exact createUserLog_userNotFound users store body headerUA now freshId h1 h2 h3 hu
  · intro hact
    by_cases hmiss : body.userId = "" ∨ body.action = "" ∨ body.ipAddress = ""
    · rw [createUserLog_missing users store body headerUA now freshId hmiss]
      exact ⟨rfl, by simp⟩
    · push_neg at hmiss
      obtain ⟨h1, h2, h3⟩ := hmiss
      cases hu : findUserById users body.userId with
      | none =>
        rw [createUserLog_userNotFound users store body headerUA now freshId h1 h2 h3 hu]
        exact ⟨rfl, by simp⟩
      | some user =>
        rw [createUserLog_found users store body headerUA now freshId user h1 h2 h3 hu]
        have hval : validRecord (logDataFor store body headerUA now freshId user) = false := by
          unfold validRecord
          rw [logDataFor_action]
          simp [hact]
        rw [if_neg (by simp [hval])]
        exact ⟨rfl, by simp⟩

/-! ## Helper lemmas: the query pipeline -/

theorem mem_sortLogs {l : List LogRecord} {sk so : String} {r : LogRecord} :
    r ∈ sortLogs sk so l ↔ r ∈ l := by
  unfold sortLogs
  split
  · exact (List.mergeSort_perm l _).mem_iff
  · exact (List.mergeSort_perm l _).mem_iff

theorem length_sortLogs (sk so : String) (l : List LogRecord) :
    (sortLogs sk so l).length = l.length := by
  unfold sortLogs
  split
  · exact (List.mergeSort_perm l _).length_eq
  · exact (List.mergeSort_perm l _).length_eq

/-- Every record of a result page is the population of a stored record
that passed the filter. -/
theorem mem_getUserLogs_data {users : List UserDoc} {store : List LogRecord}
    {q : QueryParams} {out : PopulatedLog}
    (h : out ∈ (getUserLogs users store q).data) :
    ∃ r ∈ store, matchesFilter q r = true ∧ out = populateLog users r := by
  unfold getUserLogs at h
  simp only [List.mem_map] at h
  obtain ⟨r, hr, hval⟩ := h
  have hr2 : r ∈ sortLogs q.sortBy q.sortOrder (store.filter (matchesFilter q)) :=
    List.mem_of_mem_drop (List.mem_of_mem_take hr)
  rw [mem_sortLogs] at hr2
  obtain ⟨hmem, hf⟩ := List.mem_filter.mp hr2
  exact ⟨r, hmem, hf, hval.symm⟩

theorem if_bool_iff (c b : Bool) :
    (if c = true then b else true) = true ↔ (c = true → b = true) := by
  cases c <;> simp

theorem matchesFilter_iff_specFilter (q : QueryParams) (r : LogRecord) :
    matchesFilter q r = true ↔ specFilter q r := by
  unfold matchesFilter specFilter
  cases hsd : q.startDate <;> cases hed : q.endDate <;>
    simp [if_bool_iff, Bool.and_eq_true, decide_eq_true_eq, and_imp] <;>
    tauto

/-- **C2**  A record belongs to a query's result exactly when it meets
the conjunction of the supplied filter clauses: the `role` clause
(skipped for `"all"`), the `action` clause (skipped for `"all"`), the
case-insensitive substring search over `username` OR `ipAddress`, and
the inclusive `startDate` / `endDate` bounds on `createdAt`, each
applied independently.  Every returned page entry comes from such a
record, and on the store the code's filter agrees with that conjunction
exactly. -/
theorem queryLogs_filter_semantics (users : List UserDoc)
    (store : List LogRecord) (q : QueryParams) :
    (∀ out ∈ (getUserLogs users store q).data,
      ∃ r ∈ store, specFilter q r ∧ out = populateLog users r) ∧
    (∀ r ∈ store, (matchesFilter q r = true ↔ specFilter q r)) := by
  constructor
  · intro out hout
    obtain ⟨r, hr, hf, hval⟩ := mem_getUserLogs_data hout
    exact ⟨r, hr, (matchesFilter_iff_specFilter q r).mp hf, hval⟩
  · intro r _
    exact matchesFilter_iff_specFilter q r

/-- **C10**  Each returned record carries, in place of the stored
`userId` reference, the `fullName`/`email` projection of the user
document as it stands at query time, while the denormalized `username`
and `role` snapshots are returned exactly as stored — the response
mixes event-time and query-time user data. -/
theorem queryLogs_populates_live_user (users : List UserDoc)
    (store : List LogRecord) (q : QueryParams) :
    ∀ out ∈ (getUserLogs users store q).data,
      ∃ r ∈ store,
        matchesFilter q r = true ∧
        out.user = (findUserById users r.userId).map
          (fun u => { fullName := u.fullName, email := u.email }) ∧
        out.username = r.username ∧
        out.role = r.role := by
  intro out hout
  obtain ⟨r, hr, hf, hval⟩ := mem_getUserLogs_data hout
  exact ⟨r, hr, hf, by rw [hval]; rfl, by rw [hval]; rfl, by rw [hval]; rfl⟩

/-- **C4**  Pagination: with `n` matching records, 1-indexed page `p`
and page size `L > 0`, the returned page is the sorted matching
records from offset `(p − 1) × L`, at most `L` of them (entry `i` of
the page is entry `(p − 1) × L + i` of the sorted matches), and the
metadata reports `currentPage = p`, `totalPages = ⌈n / L⌉`,
`totalItems = n`, `itemsPerPage = L`; in particular with 120 matching
records, `L = 50` and `p = 3` the page is the last 20 sorted records
and `totalPages = 3`. -/
theorem queryLogs_pagination (users : List UserDoc) (store : List LogRecord)
    (q : QueryParams) (hlim : 0 < q.limit) :
    (getUserLogs users store q).data =
      (((sortLogs q.sortBy q.sortOrder (store.filter (matchesFilter q))).drop
        ((q.page - 1) * q.limit)).take q.limit).map (populateLog users) ∧
    (getUserLogs users store q).data.length =
      min q.limit
        ((store.filter (matchesFilter q)).length - (q.page - 1) * q.limit) ∧
    (∀ i, i < q.limit →
      (getUserLogs users store q).data[i]? =
        ((sortLogs q.sortBy q.sortOrder
          (store.filter (matchesFilter q)))[(q.page - 1) * q.limit + i]?).map
          (populateLog users)) ∧
    (getUserLogs users store q).pagination =
      { currentPage := q.page
        totalPages := (store.filter (matchesFilter q)).length ⌈/⌉ q.limit
        totalItems := (store.filter (matchesFilter q)).length
        itemsPerPage := q.limit } ∧
    ((store.filter (matchesFilter q)).length = 120 → q.limit = 50 → q.page = 3 →
      (getUserLogs users store q).data =
        ((sortLogs q.sortBy q.sortOrder (store.filter (matchesFilter q))).drop
          100).map (populateLog users) ∧
      (getUserLogs users store q).data.length = 20 ∧
      (getUserLogs users store q).pagination.totalPages = 3) := by
  have hlen : (getUserLogs users store q).data.length =
      min q.limit
        ((store.filter (matchesFilter q)).length - (q.page - 1) * q.limit) := by
    unfold getUserLogs
    simp [length_sortLogs]
  refine ⟨rfl, hlen, ?_, ?_, ?_⟩
  · intro i hi
    unfold getUserLogs
    simp only [List.getElem?_map, List.getElem?_take_of_lt hi, List.getElem?_drop]
  · unfold getUserLogs
    simp [Nat.ceilDiv_eq_add_pred_div]
  · intro h120 h50 h3
    have hsortlen :
        (sortLogs q.sortBy q.sortOrder (store.filter (matchesFilter q))).length = 120 := by
      rw [length_sortLogs, h120]
    refine ⟨?_, ?_, ?_⟩
    · show (((sortLogs q.sortBy q.sortOrder (store.filter (matchesFilter q))).drop
        ((q.page - 1) * q.limit)).take q.limit).map (populateLog users) = _
      rw [h50, h3]
      have h100 : (3 - 1) * 50 = 100 := by norm_num
      rw [h100,
        List.take_of_length_le (by rw [List.length_drop, hsortlen]; norm_num)]
    · rw [hlen, h120, h50, h3]
      omega
    · simp only [getUserLogs]
      rw [h120, h50]

/-- **C3**  Over the records with `createdAt ≥ now − window(period)`
the statistics are: `totalLogs` the number of matching records,
`loginCount` those with action `login`, `logoutCount` those with
action `logout`, and `uniqueUsers` the cardinality of the set of
distinct `userId`s; a period outside `{24h, 7d, 30d}` behaves exactly
as `7d` rather than erroring, and an empty match yields the all-zero
result (success, not a failure). -/
theorem stats_aggregation_semantics (store : List LogRecord) (now : Int)
    (period : String) :
    getUserLogStats store now period =
      { totalLogs := (store.filter
          (fun r => now - periodMs period ≤ r.createdAt)).length
        loginCount := (store.filter
          (fun r => now - periodMs period ≤ r.createdAt)).countP
          (fun r => r.action = "login")
        logoutCount := (store.filter
          (fun r => now - periodMs period ≤ r.createdAt)).countP
          (fun r => r.action = "logout")
        uniqueUsers := ((store.filter
          (fun r => now - periodMs period ≤ r.createdAt)).map
          (fun r => r.userId)).toFinset.card } ∧
    (period ∉ (["24h", "7d", "30d"] : List String) →
      getUserLogStats store now period = getUserLogStats store now "7d") ∧
    (store.filter (fun r => now - periodMs period ≤ r.createdAt) = [] →
      getUserLogStats store now period =
        { totalLogs := 0, loginCount := 0, logoutCount := 0, uniqueUsers := 0 }) := by
  refine ⟨?_, ?_, ?_⟩
  · by_cases hm : store.filter
        (fun r => decide (now - periodMs period ≤ r.createdAt)) = []
    · simp only [getUserLogStats, hm]
      simp
    · simp only [getUserLogStats]
      rw [if_neg (fun hc => hm (List.isEmpty_iff.mp hc))]
      simp [List.card_toFinset]
  · intro h
    simp only [List.mem_cons, List.not_mem_nil, or_false, not_or] at h
    obtain ⟨h1, h2, h3⟩ := h
    have hp : periodMs period = periodMs "7d" := by
      simp [periodMs, h1, h2, h3]
    simp only [getUserLogStats]
    rw [hp]
  · intro h
    simp only [getUserLogStats]
    rw [h]
    rfl

theorem countP_add_length_filter_not (p : LogRecord → Bool) (l : List LogRecord) :
    l.countP p + (l.filter (fun r => !p r)).length = l.length := by
  induction l with
  | nil => rfl
  | cons a t ih =>
    by_cases h : p a = true <;>
      simp only [List.countP_cons, List.filter_cons, h, Bool.not_true,
        Bool.not_false, if_true, if_false, List.length_cons,
        Bool.false_eq_true, Bool.true_eq_false] <;>
      omega

/-- **C7**  Bulk delete fails with the invalid-input outcome exactly
when `logIds` is missing, not an array, or empty; otherwise it removes
precisely the records whose id is listed and reports a `deletedCount`
accounting for the records actually removed (ids with no surviving
record simply contribute nothing, with no error). -/
theorem bulk_delete_semantics (store : List LogRecord)
    (logIds : Option (List String)) :
    ((logIds = none ∨ logIds = some []) →
      deleteMultipleLogs store logIds = (.invalidInput, store)) ∧
    (∀ ids, logIds = some ids → ids ≠ [] →
      ∃ n remaining,
        deleteMultipleLogs store logIds = (.ok n, remaining) ∧
        (∀ r, r ∈ remaining ↔ r ∈ store ∧ r.id ∉ ids) ∧
        n + remaining.length = store.length) := by
  constructor
  · rintro (h | h) <;> subst h <;> rfl
  · intro ids hids hne
    subst hids
    simp only [deleteMultipleLogs]
    rw [if_neg (by simp [List.isEmpty_iff, hne])]
    refine ⟨_, _, rfl, ?_, ?_⟩
    · intro r
      constructor
      · intro hr
        obtain ⟨hmem, hp⟩ := List.mem_filter.mp hr
        simp only [Bool.not_eq_true'] at hp
        refine ⟨hmem, ?_⟩
        simpa using hp
      · rintro ⟨hmem, hnid⟩
        exact List.mem_filter.mpr ⟨hmem, by simpa using hnid⟩
    · exact countP_add_length_filter_not (fun r => ids.contains r.id) store

/-- **C8**  Single delete of an id with no matching record yields the
not-found outcome and leaves the store unchanged (never a silent
success); when the record exists (ids unique), the existence check
passes and exactly that record is removed. -/
theorem single_delete_semantics (store : List LogRecord) (logId : String)
    (hnodup : (store.map (fun r => r.id)).Nodup) :
    ((∀ r ∈ store, r.id ≠ logId) →
      deleteUserLog store logId = (.notFound, store)) ∧
    (∀ r ∈ store, r.id = logId →
      ∃ pre post, store = pre ++ r :: post ∧
        deleteUserLog store logId = (.ok, pre ++ post)) := by
  constructor
  · intro h
    unfold deleteUserLog
    rw [List.find?_eq_none.mpr (fun a ha => by simp [h a ha])]
  · intro r hr hid
    have hp : decide (r.id = logId) = true := by simp [hid]
    obtain ⟨a, l₁, l₂, hnp, hpa, hsplit, herase⟩ :=
      @List.exists_of_eraseP LogRecord (fun s => decide (s.id = logId)) store r hr hp
    have haid : a.id = logId := by simpa using hpa
    have hamem : a ∈ store := by
      rw [hsplit]
      exact List.mem_append_right _ (List.mem_cons_self _ _)
    have har : a = r :=
      List.inj_on_of_nodup_map hnodup hamem hr (by rw [haid, hid])
    subst har
    refine ⟨l₁, l₂, hsplit, ?_⟩
    unfold deleteUserLog
    cases hf : store.find? (fun s => s.id = logId) with
    | none =>
      rw [List.find?_eq_none] at hf
      exact absurd hp (hf a hr)
    | some y =>
      rw [herase]

/-! ## Witnesses: the claim theorems instantiated at concrete inputs -/

/-- Witness for C1: a logout for `demoUser` over a store holding an
older and a newer login links the newer one. -/
theorem logout_links_most_recent_login_witness :
    demoLogoutBody.userId ≠ "" ∧
    demoLogoutBody.ipAddress ≠ "" ∧
    demoLogoutBody.action = "logout" ∧
    findUserById [demoUser] demoLogoutBody.userId = some demoUser ∧
    (demoUser.role = "user" ∨ demoUser.role = "admin") ∧
    demoLoginOld ∈ demoStore ∧
    demoLoginOld.userId = demoUser.id ∧
    demoLoginOld.action = "login" ∧
    demoLoginOld.loginTime = some 1000 ∧
    (∃ L tmax rec,
      lastLoginLog demoStore demoUser.id = some L ∧
      L ∈ demoStore ∧ L.userId = demoUser.id ∧ L.action = "login" ∧
      L.loginTime = some tmax ∧
      createUserLog [demoUser] demoStore demoLogoutBody "UA" 3000 "g3" =
        (.created rec, demoStore ++ [rec]) ∧
      rec.logoutTime = some 3000 ∧
      rec.sessionDuration = some (3000 - tmax) ∧
      (∀ r ∈ demoStore, r.userId = demoUser.id → r.action = "login" →
        ∀ s, r.loginTime = some s → s ≤ tmax)) :=
  ⟨by decide, by decide, rfl, by decide, Or.inr rfl, by decide, rfl, rfl, rfl,
    logout_links_most_recent_login [demoUser] demoStore demoLogoutBody "UA"
      3000 "g3" demoUser (by decide) (by decide) rfl (by decide) (Or.inr rfl)
      demoLoginOld (by decide) rfl rfl 1000 rfl⟩

/-- Witness for C9: a logout over an empty store succeeds with no
`sessionDuration`. -/
theorem logout_without_prior_login_no_duration_witness :
    demoLogoutBody.userId ≠ "" ∧
    demoLogoutBody.ipAddress ≠ "" ∧
    demoLogoutBody.action = "logout" ∧
    findUserById [demoUser] demoLogoutBody.userId = some demoUser ∧
    (demoUser.role = "user" ∨ demoUser.role = "admin") ∧
    (∀ r ∈ ([] : List LogRecord), ¬(r.userId = demoUser.id ∧ r.action = "login")) ∧
    (∃ rec, createUserLog [demoUser] [] demoLogoutBody "UA" 3000 "g3" =
      (.created rec, [] ++ [rec]) ∧ rec.sessionDuration = none) :=
  ⟨by decide, by decide, rfl, by decide, Or.inr rfl, by simp,
    logout_without_prior_login_no_duration [demoUser] [] demoLogoutBody "UA"
      3000 "g3" demoUser (by decide) (by decide) rfl (by decide) (Or.inr rfl)
      (by simp)⟩

/-- Witness for C5: the record created for a login at instant 3000 over
`demoStore` satisfies the time-field invariants. -/
theorem created_record_time_field_invariants_witness :
    (∀ r ∈ demoStore, ∀ s, r.loginTime = some s → s ≤ 3000) ∧
    createUserLog [demoUser] demoStore demoLoginBody "UA" 3000 "g3" =
      (.created demoCreatedLogin, demoStore ++ [demoCreatedLogin]) ∧
    ((demoCreatedLogin.loginTime.isSome ↔ demoCreatedLogin.action = "login") ∧
      (demoCreatedLogin.logoutTime.isSome ↔ demoCreatedLogin.action = "logout") ∧
      (∀ d, demoCreatedLogin.sessionDuration = some d →
        demoCreatedLogin.action = "logout" ∧ 0 ≤ d)) :=
  have hclock : ∀ r ∈ demoStore, ∀ s, r.loginTime = some s → s ≤ 3000 := by
    intro r hr s hs
    simp only [demoStore, List.mem_cons, List.not_mem_nil, or_false] at hr
    rcases hr with rfl | rfl <;>
      (simp only [demoLoginOld, demoLoginNew, Option.some.injEq] at hs; omega)
  have hres : createUserLog [demoUser] demoStore demoLoginBody "UA" 3000 "g3" =
      (.created demoCreatedLogin, demoStore ++ [demoCreatedLogin]) := by decide
  ⟨hclock, hres,
    created_record_time_field_invariants [demoUser] demoStore demoLoginBody
      "UA" 3000 "g3" demoCreatedLogin (demoStore ++ [demoCreatedLogin])
      hclock hres⟩

/-- Witness for C6: a missing `userId` is rejected as invalid input, an
unknown `userId` as not found, and an action outside the enum creates
nothing and leaves the store unchanged. -/
theorem createUserLog_validation_order_witness :
    createUserLog [demoUser] demoStore
      { userId := "", action := "login", ipAddress := "1.2.3.4" }
      "UA" 3000 "g3" = (.invalidInput, demoStore) ∧
    createUserLog [demoUser] demoStore
      { userId := "u9", action := "login", ipAddress := "1.2.3.4" }
      "UA" 3000 "g3" = (.notFound, demoStore) ∧
    ((createUserLog [demoUser] demoStore
      { userId := "u1", action := "destroy", ipAddress := "1.2.3.4" }
      "UA" 3000 "g3").2 = demoStore ∧
      ∀ rec, (createUserLog [demoUser] demoStore
        { userId := "u1", action := "destroy", ipAddress := "1.2.3.4" }
        "UA" 3000 "g3").1 ≠ .created rec) :=
  ⟨(createUserLog_validation_order [demoUser] demoStore
      { userId := "", action := "login", ipAddress := "1.2.3.4" }
      "UA" 3000 "g3").1 (Or.inl rfl) [demoUser] demoStore,
    (createUserLog_validation_order [demoUser] demoStore
      { userId := "u9", action := "login", ipAddress := "1.2.3.4" }
      "UA" 3000 "g3").2.1 (by decide) (by decide) (by decide) (by decide),
    (createUserLog_validation_order [demoUser] demoStore
      { userId := "u1", action := "destroy", ipAddress := "1.2.3.4" }
      "UA" 3000 "g3").2.2 (by decide)⟩

/-- Witness for C2: the filter agreement instantiated at a concrete
directory, store and query with role and search clauses. -/
theorem queryLogs_filter_semantics_witness :
    (∀ out ∈ (getUserLogs [demoUser] demoStore demoQuery).data,
      ∃ r ∈ demoStore, specFilter demoQuery r ∧ out = populateLog [demoUser] r) ∧
    (∀ r ∈ demoStore, (matchesFilter demoQuery r = true ↔ specFilter demoQuery r)) :=
  queryLogs_filter_semantics [demoUser] demoStore demoQuery

/-- Witness for C10: a concrete returned record, over a directory in
which the user's email and role have changed since the records were
written, carries the new directory data in `user` and the old snapshot
in `username`/`role`. -/
theorem queryLogs_populates_live_user_witness :
    populateLog [demoUserChanged] demoLoginNew ∈
      (getUserLogs [demoUserChanged] demoStore demoQuery).data ∧
    (∃ r ∈ demoStore,
      matchesFilter demoQuery r = true ∧
      (populateLog [demoUserChanged] demoLoginNew).user =
        (findUserById [demoUserChanged] r.userId).map
          (fun u => { fullName := u.fullName, email := u.email }) ∧
      (populateLog [demoUserChanged] demoLoginNew).username = r.username ∧
      (populateLog [demoUserChanged] demoLoginNew).role = r.role) :=
  have hmem : populateLog [demoUserChanged] demoLoginNew ∈
      (getUserLogs [demoUserChanged] demoStore demoQuery).data := by
    simp only [getUserLogs, List.mem_map]
    refine ⟨demoLoginNew, ?_, rfl⟩
    have h0 : (demoQuery.page - 1) * demoQuery.limit = 0 := rfl
    rw [h0, List.drop_zero,
      List.take_of_length_le (by rw [length_sortLogs]; decide)]
    rw [mem_sortLogs]
    decide
  ⟨hmem, queryLogs_populates_live_user [demoUserChanged] demoStore demoQuery
    (populateLog [demoUserChanged] demoLoginNew) hmem⟩

/-- Witness for C4: the pagination contract instantiated at the default
query over the concrete store. -/
theorem queryLogs_pagination_witness :
    0 < demoQuery.limit ∧
    ((getUserLogs [demoUser] demoStore demoQuery).data =
      (((sortLogs demoQuery.sortBy demoQuery.sortOrder
        (demoStore.filter (matchesFilter demoQuery))).drop
        ((demoQuery.page - 1) * demoQuery.limit)).take demoQuery.limit).map
        (populateLog [demoUser]) ∧
    (getUserLogs [demoUser] demoStore demoQuery).data.length =
      min demoQuery.limit
        ((demoStore.filter (matchesFilter demoQuery)).length -
          (demoQuery.page - 1) * demoQuery.limit) ∧
    (∀ i, i < demoQuery.limit →
      (getUserLogs [demoUser] demoStore demoQuery).data[i]? =
        ((sortLogs demoQuery.sortBy demoQuery.sortOrder
          (demoStore.filter
            (matchesFilter demoQuery)))[(demoQuery.page - 1) *
              demoQuery.limit + i]?).map (populateLog [demoUser])) ∧
    (getUserLogs [demoUser] demoStore demoQuery).pagination =
      { currentPage := demoQuery.page
        totalPages :=
          (demoStore.filter (matchesFilter demoQuery)).length ⌈/⌉ demoQuery.limit
        totalItems := (demoStore.filter (matchesFilter demoQuery)).length
        itemsPerPage := demoQuery.limit } ∧
    ((demoStore.filter (matchesFilter demoQuery)).length = 120 →
      demoQuery.limit = 50 → demoQuery.page = 3 →
      (getUserLogs [demoUser] demoStore demoQuery).data =
        ((sortLogs demoQuery.sortBy demoQuery.sortOrder
          (demoStore.filter (matchesFilter demoQuery))).drop 100).map
          (populateLog [demoUser]) ∧
      (getUserLogs [demoUser] demoStore demoQuery).data.length = 20 ∧
      (getUserLogs [demoUser] demoStore demoQuery).pagination.totalPages = 3)) :=
  ⟨by decide, queryLogs_pagination [demoUser] demoStore demoQuery (by decide)⟩

/-- Witness for C3: the statistics contract instantiated at the
concrete store with an unrecognized period. -/
theorem stats_aggregation_semantics_witness :
    getUserLogStats demoStore 3000 "weird" =
      { totalLogs := (demoStore.filter
          (fun r => (3000 : Int) - periodMs "weird" ≤ r.createdAt)).length
        loginCount := (demoStore.filter
          (fun r => (3000 : Int) - periodMs "weird" ≤ r.createdAt)).countP
          (fun r => r.action = "login")
        logoutCount := (demoStore.filter
          (fun r => (3000 : Int) - periodMs "weird" ≤ r.createdAt)).countP
          (fun r => r.action = "logout")
        uniqueUsers := ((demoStore.filter
          (fun r => (3000 : Int) - periodMs "weird" ≤ r.createdAt)).map
          (fun r => r.userId)).toFinset.card } ∧
    ("weird" ∉ (["24h", "7d", "30d"] : List String) →
      getUserLogStats demoStore 3000 "weird" =
        getUserLogStats demoStore 3000 "7d") ∧
    (demoStore.filter
        (fun r => (3000 : Int) - periodMs "weird" ≤ r.createdAt) = [] →
      getUserLogStats demoStore 3000 "weird" =
        { totalLogs := 0, loginCount := 0, logoutCount := 0, uniqueUsers := 0 }) :=
  stats_aggregation_semantics demoStore 3000 "weird"

/-- Witness for C7: bulk delete over the concrete store with one
present and one absent id. -/
theorem bulk_delete_semantics_witness :
    ∃ n remaining,
      deleteMultipleLogs demoStore (some ["g1", "zzz"]) = (.ok n, remaining) ∧
      (∀ r, r ∈ remaining ↔ r ∈ demoStore ∧ r.id ∉ (["g1", "zzz"] : List String)) ∧
      n + remaining.length = demoStore.length :=
  (bulk_delete_semantics demoStore (some ["g1", "zzz"])).2
    ["g1", "zzz"] rfl (by decide)

/-- Witness for C8: single delete over the concrete store, whose ids
are distinct. -/
theorem single_delete_semantics_witness :
    (demoStore.map (fun r => r.id)).Nodup ∧
    (((∀ r ∈ demoStore, r.id ≠ "g1") →
        deleteUserLog demoStore "g1" = (.notFound, demoStore)) ∧
      (∀ r ∈ demoStore, r.id = "g1" →
        ∃ pre post, demoStore = pre ++ r :: post ∧
          deleteUserLog demoStore "g1" = (.ok, pre ++ post))) :=
  ⟨by decide, single_delete_semantics demoStore "g1" (by decide)⟩

end TaskFlow
